import Mathlib

/-!
Shallow embedding of the fairness-critical core of the `solana-poker` program
(`src/solpok/programs/solana-poker/src`): the commit/blind/reveal dealing
pipeline and the betting-round state machine.

Modelling conventions:
* Machine integers (`u8`, `u16`, `u64`) are modelled as `Nat`; every use in the
  program keeps values far below the word size (seat indices < 8, bit masks
  over at most 15 bits), so no wraparound arithmetic is reachable in the
  modelled operations, and `-` is Rust's checked subtraction on values where
  the program guarantees non-underflow (`saturating_sub` is Nat subtraction
  exactly).
* Encrypted values (`Euint128` handles) are opaque: modelled as `Nat`.
  Cross-program invocations into the encryption program (`new_euint128`,
  `e_rand`, `e_add`, `allow`) are external effects whose results are supplied
  as oracle parameters (`ingest`, `rand`, `eAdd`); on-chain they either
  succeed or abort the whole transaction, so they are modelled as total.
* Each instruction handler is translated statement-by-statement into a pure
  function returning `(Option PokerError, state...)`: a `require!` that fires
  returns the state as it stood at that program point (all of them fire before
  any mutation in the source, which is exactly what claim C9 checks), and the
  Solana runtime additionally rolls back every account write when an
  instruction errors, which is how the `world*` wrappers interpret an error.
* Anchor account constraints that carry a typed error and concern the modelled
  state (the seat-index constraints of `post_blinds`) are modelled as leading
  checks of the handler; key/signer plumbing (`admin`, PDAs) is out of scope.
-/

namespace SolPoker

/-- `GameStage` from `state/mod.rs`. -/
inductive GameStage where
  | Waiting
  | PreFlop
  | Flop
  | Turn
  | River
  | Showdown
  | Finished
deriving DecidableEq, Repr

/-- `GameStage::next` from `state/mod.rs`. -/
def GameStage.next : GameStage → Option GameStage
  | .Waiting => some .PreFlop
  | .PreFlop => some .Flop
  | .Flop => some .Turn
  | .Turn => some .River
  | .River => some .Showdown
  | .Showdown => some .Finished
  | .Finished => none

/-- `BetAction` from `state/mod.rs`. -/
inductive BetAction where
  | Fold
  | Check
  | Call
  | Raise
  | AllIn
deriving DecidableEq, Repr

/-- The error codes of `error.rs` used by the modelled handlers. -/
inductive PokerError where
  | InvalidBuyIn
  | NotYourTurn
  | InsufficientChips
  | InvalidBetAmount
  | PlayerFolded
  | PlayerAlreadyActed
  | InvalidGameStage
  | PlayerNotAtTable
  | CardsNotSubmitted
  | CardsAlreadySubmitted
  | CardsAlreadyDealt
  | InvalidCardCount
  | CannotCheck
  | RaiseTooSmall
  | OffsetAlreadyApplied
  | OffsetNotApplied
  | InvalidSeatIndex
  | BlindsAlreadyPosted
  | InvalidBatchIndex
  | BatchOutOfOrder
  | PositionOffsetAlreadySet
deriving DecidableEq, Repr

/-- The fields of `PokerTable` read by the modelled handlers
(`small_blind`, `buy_in_min`, `buy_in_max`). -/
structure PokerTable where
  small_blind : Nat
  buy_in_min : Nat
  buy_in_max : Nat
deriving DecidableEq, Repr

/-- `PlayerSeat` from `state/player_seat.rs`; the field list and order are the
ones assigned in `deal_cards.rs` and documented in the layout comment of
`advance_stage.rs`. Account keys are modelled as `Nat`. -/
structure PlayerSeat where
  game : Nat
  player : Nat
  seat_index : Nat
  chips : Nat
  hole_card_1 : Nat
  hole_card_2 : Nat
  current_bet : Nat
  total_bet : Nat
  is_folded : Bool
  is_all_in : Bool
  has_acted : Bool
  hand_rank : Nat
deriving DecidableEq, Repr, Inhabited

/-- `PokerGame` from `state/poker_game.rs` (minus the `table` key and `bump`,
which no modelled handler reads). `card_pool` is the 15-slot pool of opaque
handles. -/
structure PokerGame where
  game_id : Nat
  stage : GameStage
  pot : Nat
  current_bet : Nat
  dealer_position : Nat
  action_on : Nat
  players_remaining : Nat
  players_acted : Nat
  player_count : Nat
  folded_mask : Nat
  all_in_mask : Nat
  blinds_posted : Nat
  last_raiser : Nat
  last_raise_amount : Nat
  card_pool : List Nat
  encrypted_offset : Nat
  offset_batch : Nat
  cards_offset_mask : Nat
  position_offset : Nat
  cards_submitted : Bool
  offset_applied : Bool
  cards_dealt_count : Nat
  community_revealed : Nat
  winner_seat : Option Nat
deriving DecidableEq, Repr

/-- `PokerGame::is_folded`: `(folded_mask >> seat) & 1 == 1`. -/
def PokerGame.is_folded (g : PokerGame) (seat : Nat) : Bool :=
  (g.folded_mask >>> seat) &&& 1 == 1

/-- `PokerGame::is_all_in`: `(all_in_mask >> seat) & 1 == 1`. -/
def PokerGame.is_all_in (g : PokerGame) (seat : Nat) : Bool :=
  (g.all_in_mask >>> seat) &&& 1 == 1

/-- `PokerGame::is_active`: not folded and not all-in. -/
def PokerGame.is_active (g : PokerGame) (seat : Nat) : Bool :=
  !g.is_folded seat && !g.is_all_in seat

/-- `PokerGame::active_player_count`: count of active seats `< player_count`. -/
def PokerGame.active_player_count (g : PokerGame) : Nat :=
  ((List.range g.player_count).filter (fun i => g.is_active i)).length

/-- `PokerGame::is_card_offset`: `(cards_offset_mask >> card_index) & 1 == 1`. -/
def PokerGame.is_card_offset (g : PokerGame) (card_index : Nat) : Bool :=
  (g.cards_offset_mask >>> card_index) &&& 1 == 1

/-- `PokerGame::all_cards_offset`: `cards_offset_mask == 0x7FFF`. -/
def PokerGame.all_cards_offset (g : PokerGame) : Bool :=
  g.cards_offset_mask == 0x7FFF

/-- The game state as initialised by `start_game.rs` for a table with
`player_count` seated players (every Euint128 handle starts as the default
handle, modelled as 0). -/
def initialGame (game_id player_count : Nat) : PokerGame :=
  { game_id := game_id
    stage := .Waiting
    pot := 0
    current_bet := 0
    dealer_position := 0
    action_on := 0
    players_remaining := player_count
    players_acted := 0
    player_count := player_count
    folded_mask := 0
    all_in_mask := 0
    blinds_posted := 0
    last_raiser := 0
    last_raise_amount := 0
    card_pool := List.replicate 15 0
    encrypted_offset := 0
    offset_batch := 0
    cards_offset_mask := 0
    position_offset := 0
    cards_submitted := false
    offset_applied := false
    cards_dealt_count := 0
    community_revealed := 0
    winner_seat := none }

/-! ## submit_cards (`submit_cards.rs`) -/

/-- The card-storing loop of `submit_cards::handler`: for each of the five
ciphertexts, ingest it through the encryption program (`new_euint128`,
modelled by the oracle `ingest` applied to the ciphertext and `input_type`)
and store the returned handle at the next pool slot. -/
def storeCards (ingest : Nat → Nat → Nat) (input_type : Nat) :
    List Nat → Nat → List Nat → List Nat
  | pool, _, [] => pool
  | pool, idx, c :: rest =>
      storeCards ingest input_type (pool.set idx (ingest c input_type)) (idx + 1) rest

/-- `submit_cards::handler`. Batch `batch_index` stores five ingested handles
at pool slots `batch_index*5 .. batch_index*5+4`; submission progress is
tracked in `community_revealed` (repurposed as a submission mask), which is
reset to 0 once all three batches have landed. -/
def submitCards (ingest : Nat → Nat → Nat) (g : PokerGame) (batch_index : Nat)
    (c0 c1 c2 c3 c4 : Nat) (input_type : Nat) :
    Option PokerError × PokerGame :=
  if ¬ (g.stage = .Waiting) then (some .InvalidGameStage, g)
  else if ¬ (batch_index < 3) then (some .InvalidBatchIndex, g)
  else
    let batch_bit := 2 ^ batch_index
    let submitted_mask := g.community_revealed
    if ¬ (submitted_mask &&& batch_bit = 0) then (some .CardsAlreadySubmitted, g)
    else
      let encrypted_cards := [c0, c1, c2, c3, c4]
      let start_idx := batch_index * 5
      let pool := storeCards ingest input_type g.card_pool start_idx encrypted_cards
      let g' := { g with card_pool := pool,
                         community_revealed := g.community_revealed ||| batch_bit }
      if g'.community_revealed = 7 then
        (none, { g' with cards_submitted := true, community_revealed := 0 })
      else
        (none, g')

/-! ## apply_offset_batch (`apply_offset_batch.rs`) -/

/-- The per-card loop of `apply_offset_batch::handler` over a list of pool
indices: a card whose bit is already set in `cards_offset_mask` is skipped;
otherwise its handle is homomorphically combined with `offset` (`e_add`,
modelled by the oracle `eAdd`) and its bit is marked. -/
def applyCards (eAdd : Nat → Nat → Nat) (offset : Nat) :
    List Nat → PokerGame → PokerGame
  | [], g => g
  | i :: rest, g =>
      if g.is_card_offset i then
        applyCards eAdd offset rest g
      else
        applyCards eAdd offset rest
          { g with card_pool := g.card_pool.set i (eAdd (g.card_pool.getD i 0) offset),
                   cards_offset_mask := g.cards_offset_mask ||| 2 ^ i }

/-- The body of `apply_offset_batch::handler` after all validation: draw the
encrypted offset on the first invocation of batch 0 (`e_rand`, modelled by the
oracle value `rand`), apply it to every not-yet-offset card of the batch, bump
`offset_batch`, and mark completion after batch 2 once all 15 bits are set. -/
def applyOffsetBatchBody (rand : Nat) (eAdd : Nat → Nat → Nat) (g : PokerGame)
    (batch_index : Nat) : Option PokerError × PokerGame :=
  let start_card := batch_index * 5
  let end_card := min ((batch_index + 1) * 5) 15
  let g1 := if batch_index = 0 ∧ g.offset_batch = 0 then { g with encrypted_offset := rand } else g
  let offset := g1.encrypted_offset
  let g2 := applyCards eAdd offset (List.range' start_card (end_card - start_card)) g1
  let g3 := { g2 with offset_batch := batch_index + 1 }
  if batch_index = 2 ∧ g3.all_cards_offset then
    (none, { g3 with offset_batch := 255, offset_applied := true })
  else
    (none, g3)

/-- `apply_offset_batch::handler`. The source's batch-ordering `match` (batch
1 requires `offset_batch >= 1`, batch 2 requires `offset_batch >= 2`, batch 0
always allowed; the catch-all arm is dead because `batch_index < 3` was
already required) is rendered as the equivalent two conditionals. -/
def applyOffsetBatch (rand : Nat) (eAdd : Nat → Nat → Nat) (g : PokerGame)
    (batch_index : Nat) : Option PokerError × PokerGame :=
  if ¬ (g.cards_submitted = true) then (some .CardsNotSubmitted, g)
  else if ¬ (g.offset_applied = false) then (some .OffsetAlreadyApplied, g)
  else if ¬ (g.stage = .Waiting) then (some .InvalidGameStage, g)
  else if ¬ (batch_index < 3) then (some .InvalidBatchIndex, g)
  else if batch_index = 1 ∧ ¬ (1 ≤ g.offset_batch) then (some .BatchOutOfOrder, g)
  else if batch_index = 2 ∧ ¬ (2 ≤ g.offset_batch) then (some .BatchOutOfOrder, g)
  else applyOffsetBatchBody rand eAdd g batch_index

/-! ## generate_offset (`generate_offset.rs`) -/

/-- `generate_offset::handler`; `slot` is the Solana clock slot supplied by the
runtime, of which the handler uses the first little-endian byte (`slot % 256`).
The stored offset is `(slot_byte % 10) + 1`, never 0. -/
def generateOffset (slot : Nat) (g : PokerGame) : Option PokerError × PokerGame :=
  if ¬ (g.cards_submitted = true) then (some .CardsNotSubmitted, g)
  else if ¬ (g.offset_applied = true) then (some .OffsetNotApplied, g)
  else if ¬ (g.position_offset = 0) then (some .PositionOffsetAlreadySet, g)
  else if ¬ (g.stage = .Waiting) then (some .InvalidGameStage, g)
  else
    let offset := (slot % 256) % 10 + 1
    (none, { g with position_offset := offset })

/-! ## deal_cards (`deal_cards.rs`) -/

/-- `deal_cards::handler`. On success it also returns the freshly initialised
`PlayerSeat` account (created by the Anchor `init` constraint); the `allow`
CPIs that grant the player decryption rights are external effects outside the
modelled state. -/
def dealCards (table : PokerTable) (g : PokerGame) (game_key player_key : Nat)
    (seat_index buy_in : Nat) : Option PokerError × PokerGame × Option PlayerSeat :=
  if ¬ (g.cards_submitted = true) then (some .CardsNotSubmitted, g, none)
  else if ¬ (g.offset_applied = true) then (some .OffsetNotApplied, g, none)
  else if ¬ (g.stage = .Waiting) then (some .InvalidGameStage, g, none)
  else if ¬ (seat_index < g.player_count) then (some .PlayerNotAtTable, g, none)
  else if ¬ (table.buy_in_min ≤ buy_in ∧ buy_in ≤ table.buy_in_max) then
    (some .InvalidBuyIn, g, none)
  else if ¬ (g.cards_dealt_count < g.player_count) then (some .CardsAlreadyDealt, g, none)
  else
    let offset := g.position_offset
    let base_idx_1 := seat_index * 2
    let base_idx_2 := seat_index * 2 + 1
    let card_1_idx := (base_idx_1 + offset) % 10
    let card_2_idx := (base_idx_2 + offset) % 10
    if ¬ (card_1_idx < 10 ∧ card_2_idx < 10) then (some .InvalidCardCount, g, none)
    else
      let card_1_handle := g.card_pool.getD card_1_idx 0
      let card_2_handle := g.card_pool.getD card_2_idx 0
      let player_seat : PlayerSeat :=
        { game := game_key
          player := player_key
          seat_index := seat_index
          chips := buy_in
          hole_card_1 := card_1_handle
          hole_card_2 := card_2_handle
          current_bet := 0
          total_bet := 0
          is_folded := false
          is_all_in := false
          has_acted := false
          hand_rank := 0 }
      let g1 := { g with cards_dealt_count := g.cards_dealt_count + 1 }
      let g2 := if g1.cards_dealt_count = g1.player_count then { g1 with stage := .PreFlop }
                else g1
      (none, g2, some player_seat)

/-! ## Bounded next-active-seat scan -/

/-- The bounded `while checked < player_count` scan shared by `post_blinds`,
`player_action::advance_action` and `advance_stage`: starting at `pos`, step to
the next seat modulo `player_count` until an active seat is found or `fuel`
(always `player_count`) probes have been made. -/
def findActiveAux (g : PokerGame) : Nat → Nat → Nat
  | pos, 0 => pos
  | pos, fuel + 1 =>
      if g.is_active pos then pos
      else findActiveAux g ((pos + 1) % g.player_count) fuel

/-! ## post_blinds (`post_blinds.rs`) -/

/-- `post_blinds::handler`, with the two Anchor seat-index constraints modelled
as the leading checks. Both blind amounts are capped at the poster's stack and
the seats' `current_bet`/`total_bet` are SET (not incremented) to the posted
amount. -/
def postBlinds (table : PokerTable) (g : PokerGame) (sb_seat bb_seat : PlayerSeat) :
    Option PokerError × PokerGame × PlayerSeat × PlayerSeat :=
  if ¬ (sb_seat.seat_index = (g.dealer_position + 1) % g.player_count) then
    (some .InvalidSeatIndex, g, sb_seat, bb_seat)
  else if ¬ (bb_seat.seat_index = (g.dealer_position + 2) % g.player_count) then
    (some .InvalidSeatIndex, g, sb_seat, bb_seat)
  else if ¬ (g.stage = .PreFlop) then (some .InvalidGameStage, g, sb_seat, bb_seat)
  else if ¬ (g.blinds_posted = 0) then (some .BlindsAlreadyPosted, g, sb_seat, bb_seat)
  else
    let small_blind := table.small_blind
    let big_blind := small_blind * 2
    let sb_amount := min small_blind sb_seat.chips
    let sb' := { sb_seat with chips := sb_seat.chips - sb_amount,
                              current_bet := sb_amount, total_bet := sb_amount }
    let g1 := { g with pot := g.pot + sb_amount,
                       blinds_posted := g.blinds_posted ||| 2 ^ sb'.seat_index }
    let bb_amount := min big_blind bb_seat.chips
    let bb' := { bb_seat with chips := bb_seat.chips - bb_amount,
                              current_bet := bb_amount, total_bet := bb_amount }
    let g2 := { g1 with pot := g1.pot + bb_amount,
                        blinds_posted := g1.blinds_posted ||| 2 ^ bb'.seat_index,
                        current_bet := bb_amount,
                        last_raise_amount := bb_amount,
                        last_raiser := bb'.seat_index }
    let first_to_act := findActiveAux g2 ((bb'.seat_index + 1) % g2.player_count) g2.player_count
    let g3 := { g2 with action_on := first_to_act, players_acted := 0 }
    (none, g3, { sb' with has_acted := false }, { bb' with has_acted := false })

/-! ## player_action (`player_action.rs`) -/

/-- The `action` byte decoding at the top of `player_action::handler`. -/
def decodeAction : Nat → Option BetAction
  | 0 => some .Fold
  | 1 => some .Check
  | 2 => some .Call
  | 3 => some .Raise
  | 4 => some .AllIn
  | _ + 5 => none

/-- The common epilogue of `player_action::handler`: mark the actor as having
acted, bump `players_acted`, and run `advance_action` (which moves `action_on`
to the next active seat with a bounded scan; its round-completion check only
logs). -/
def playerActionFinish (g : PokerGame) (seat : PlayerSeat) :
    Option PokerError × PokerGame × PlayerSeat :=
  let seat1 := { seat with has_acted := true }
  let g1 := { g with players_acted := g.players_acted + 1 }
  let next := findActiveAux g1 ((g1.action_on + 1) % g1.player_count) g1.player_count
  (none, { g1 with action_on := next }, seat1)

/-- `player_action::handler`. -/
def playerAction (g : PokerGame) (player_seat : PlayerSeat) (action raise_amount : Nat) :
    Option PokerError × PokerGame × PlayerSeat :=
  match decodeAction action with
  | none => (some .InvalidBetAmount, g, player_seat)
  | some act =>
    let seat_index := player_seat.seat_index
    if ¬ (player_seat.seat_index = g.action_on) then (some .NotYourTurn, g, player_seat)
    else if g.is_folded seat_index then (some .PlayerFolded, g, player_seat)
    else if g.is_all_in seat_index then (some .PlayerAlreadyActed, g, player_seat)
    else if g.stage = .Waiting ∨ g.stage = .Showdown ∨ g.stage = .Finished then
      (some .InvalidGameStage, g, player_seat)
    else
      let amount_to_call := g.current_bet - player_seat.current_bet
      match act with
      | .Fold =>
          let seat1 := { player_seat with is_folded := true }
          let g1 := { g with folded_mask := g.folded_mask ||| 2 ^ seat_index,
                             players_remaining := g.players_remaining - 1 }
          let g2 := if g1.players_remaining = 1 then { g1 with stage := .Showdown } else g1
          playerActionFinish g2 seat1
      | .Check =>
          if ¬ (amount_to_call = 0) then (some .CannotCheck, g, player_seat)
          else playerActionFinish g player_seat
      | .Call =>
          if ¬ (amount_to_call ≤ player_seat.chips) then
            (some .InsufficientChips, g, player_seat)
          else
            let seat1 := { player_seat with
                             chips := player_seat.chips - amount_to_call,
                             current_bet := player_seat.current_bet + amount_to_call,
                             total_bet := player_seat.total_bet + amount_to_call }
            playerActionFinish { g with pot := g.pot + amount_to_call } seat1
      | .Raise =>
          let min_raise := if 0 < g.last_raise_amount then g.last_raise_amount
                           else g.current_bet
          if ¬ (min_raise ≤ raise_amount) then (some .RaiseTooSmall, g, player_seat)
          else
            let total_to_call := amount_to_call + raise_amount
            if ¬ (total_to_call ≤ player_seat.chips) then
              (some .InsufficientChips, g, player_seat)
            else
              let seat1 := { player_seat with
                               chips := player_seat.chips - total_to_call,
                               current_bet := player_seat.current_bet + total_to_call,
                               total_bet := player_seat.total_bet + total_to_call }
              let g1 := { g with pot := g.pot + total_to_call,
                                 current_bet := seat1.current_bet,
                                 last_raiser := seat_index,
                                 last_raise_amount := raise_amount,
                                 players_acted := 0 }
              playerActionFinish g1 seat1
      | .AllIn =>
          let all_in_amount := player_seat.chips
          let seat1 := { player_seat with
                           chips := 0,
                           current_bet := player_seat.current_bet + all_in_amount,
                           total_bet := player_seat.total_bet + all_in_amount,
                           is_all_in := true }
          let g1 := { g with all_in_mask := g.all_in_mask ||| 2 ^ seat_index,
                             pot := g.pot + all_in_amount }
          let g2 := if g1.current_bet < seat1.current_bet then
              { g1 with current_bet := seat1.current_bet,
                        last_raiser := seat_index,
                        last_raise_amount := seat1.current_bet - g1.current_bet,
                        players_acted := 0 }
            else g1
          playerActionFinish g2 seat1

/-! ## advance_stage (`advance_stage.rs`) -/

/-- The per-account reset loop of `advance_stage::handler`: each supplied
`PlayerSeat` account has its bytes at the documented offsets of `current_bet`
(113) and `has_acted` (131) overwritten with zero, i.e. `current_bet := 0`
and `has_acted := false`; no other byte of the account is touched. -/
def resetSeatForNewRound (s : PlayerSeat) : PlayerSeat :=
  { s with current_bet := 0, has_acted := false }

/-- `advance_stage::handler`; `seats` is the list of `PlayerSeat` accounts
passed via `remaining_accounts`. In the unreachable arm where
`GameStage::next` is `None` after the seat resets, the seats mutated so far
are returned alongside the error, mirroring the program point at which the
Rust code would bail out. -/
def advanceStage (g : PokerGame) (seats : List PlayerSeat) :
    Option PokerError × PokerGame × List PlayerSeat :=
  if g.stage = .Waiting ∨ g.stage = .Finished then (some .InvalidGameStage, g, seats)
  else if g.players_remaining = 1 then (none, { g with stage := .Showdown }, seats)
  else
    let seats1 := seats.map resetSeatForNewRound
    match g.stage.next with
    | none => (some .InvalidGameStage, g, seats1)
    | some next_stage =>
      let g1 := match next_stage with
        | .Flop => { g with community_revealed := g.community_revealed ||| 7 }
        | .Turn => { g with community_revealed := g.community_revealed ||| 8 }
        | .River => { g with community_revealed := g.community_revealed ||| 16 }
        | _ => g
      let g2 := { g1 with current_bet := 0, players_acted := 0,
                          last_raiser := 0, last_raise_amount := 0 }
      let sb_position := (g2.dealer_position + 1) % g2.player_count
      let action_pos := findActiveAux g2 sb_position g2.player_count
      (none, { g2 with action_on := action_pos, stage := next_stage }, seats1)

/-! ## World: one game account plus its seat accounts

The Solana runtime serialises instructions against a game and rolls back all
account writes when an instruction errors; a `world*` wrapper therefore
commits the handler's output exactly when the handler returns no error. -/

/-- A game together with the `PlayerSeat` accounts created for it, in dealing
order. -/
structure World where
  game : PokerGame
  seats : List PlayerSeat
deriving DecidableEq, Repr

/-- The accounting invariant: the pot equals the sum of all dealt seats'
`total_bet`. -/
def potInvariant (w : World) : Prop :=
  w.game.pot = (w.seats.map PlayerSeat.total_bet).sum

instance (w : World) : Decidable (potInvariant w) := by
  unfold potInvariant
  infer_instance

/-- `submit_cards` as a transaction on a world. -/
def worldSubmitCards (ingest : Nat → Nat → Nat) (w : World) (batch_index : Nat)
    (c0 c1 c2 c3 c4 : Nat) (input_type : Nat) : World :=
  match submitCards ingest w.game batch_index c0 c1 c2 c3 c4 input_type with
  | (none, g) => { w with game := g }
  | (some _, _) => w

/-- `apply_offset_batch` as a transaction on a world. -/
def worldApplyOffsetBatch (rand : Nat) (eAdd : Nat → Nat → Nat) (w : World)
    (batch_index : Nat) : World :=
  match applyOffsetBatch rand eAdd w.game batch_index with
  | (none, g) => { w with game := g }
  | (some _, _) => w

/-- `generate_offset` as a transaction on a world. -/
def worldGenerateOffset (slot : Nat) (w : World) : World :=
  match generateOffset slot w.game with
  | (none, g) => { w with game := g }
  | (some _, _) => w

/-- `deal_cards` as a transaction on a world: on success the fresh seat
account is appended. -/
def worldDealCards (table : PokerTable) (w : World) (player_key seat_index buy_in : Nat) :
    World :=
  match dealCards table w.game 0 player_key seat_index buy_in with
  | (none, g, some s) => { game := g, seats := w.seats ++ [s] }
  | _ => w

/-- `post_blinds` as a transaction on a world, the two blind seat accounts
taken from positions `i` and `j` of the seat list. -/
def worldPostBlinds (table : PokerTable) (w : World) (i j : Nat) : World :=
  match w.seats[i]?, w.seats[j]? with
  | some sb, some bb =>
      (match postBlinds table w.game sb bb with
       | (none, g, sb', bb') => { game := g, seats := (w.seats.set i sb').set j bb' }
       | _ => w)
  | _, _ => w

/-- `player_action` as a transaction on a world, the actor's seat account
taken from position `i` of the seat list. -/
def worldPlayerAction (w : World) (i : Nat) (action raise_amount : Nat) : World :=
  match w.seats[i]? with
  | none => w
  | some seat =>
      (match playerAction w.game seat action raise_amount with
       | (none, g, seat') => { game := g, seats := w.seats.set i seat' }
       | _ => w)

/-- `advance_stage` as a transaction on a world, all seat accounts passed as
`remaining_accounts`. -/
def worldAdvanceStage (w : World) : World :=
  match advanceStage w.game w.seats with
  | (none, g, seats) => { game := g, seats := seats }
  | _ => w

/-! ## A concrete executed hand

A fully concrete trace of a 3-player hand, executed through the embedded
handlers from the `start_game` initial state, with concrete oracles for the
external encryption calls. It is used to exhibit reachable states in the
counterexamples and witnesses below. -/

/-- Concrete ingestion oracle: the handle returned for a ciphertext is the
ciphertext value itself. -/
def ingC : Nat → Nat → Nat := fun c _ => c

/-- Concrete homomorphic-add oracle. -/
def eAddC : Nat → Nat → Nat := fun a b => a + b

/-- Concrete table: small blind 10, buy-in range 100–1000. -/
def tableC : PokerTable := { small_blind := 10, buy_in_min := 100, buy_in_max := 1000 }

/-- Initial 3-player game, as `start_game` leaves it. -/
def g0 : PokerGame := initialGame 1 3

/-- After `submit_cards` batch 0 (ciphertexts 100–104). -/
def gS1 : PokerGame := (submitCards ingC g0 0 100 101 102 103 104 0).2

/-- After `submit_cards` batch 1 (ciphertexts 105–109). -/
def gS2 : PokerGame := (submitCards ingC gS1 1 105 106 107 108 109 0).2

/-- After `submit_cards` batch 2 (ciphertexts 110–114): all cards submitted. -/
def gS3 : PokerGame := (submitCards ingC gS2 2 110 111 112 113 114 0).2

/-- After `apply_offset_batch` batch 0 (fresh encrypted offset 1000). -/
def gO1 : PokerGame := (applyOffsetBatch 1000 eAddC gS3 0).2

/-- After `apply_offset_batch` batch 1. -/
def gO2 : PokerGame := (applyOffsetBatch 1000 eAddC gO1 1).2

/-- After `apply_offset_batch` batch 2: the value offset is fully applied. -/
def gO3 : PokerGame := (applyOffsetBatch 1000 eAddC gO2 2).2

/-- The world right after the blinding phase (no seats dealt yet);
`generate_offset` has NOT been called, so `position_offset` is still 0. -/
def w0 : World := { game := gO3, seats := [] }

/-- Seat 0 dealt (player key 11, buy-in 500). -/
def w1 : World := worldDealCards tableC w0 11 0 500

/-- Seat 1 dealt. -/
def w2 : World := worldDealCards tableC w1 12 1 500

/-- Seat 2 dealt: the game auto-advances to PreFlop. -/
def w3 : World := worldDealCards tableC w2 13 2 500

/-- Seat 0 (on action) opens with a raise of 5 — legal in this program even
though blinds have not been posted yet. -/
def w4 : World := worldPlayerAction w3 0 3 5

/-- Seat 1 calls the 5. -/
def w5 : World := worldPlayerAction w4 1 2 0

/-- Blinds posted afterwards: small blind is the seat at list position 1
(seat index 1 = dealer+1), big blind at position 2. -/
def w6 : World := worldPostBlinds tableC w5 1 2

/-- A concrete 5-player game ready for dealing, with `position_offset = 3` and
pool handle `300 + slot` at each slot, used to exhibit the rotation wraparound
of claim C5. -/
def gC5 : PokerGame :=
  { initialGame 7 5 with
      cards_submitted := true, offset_applied := true, offset_batch := 255,
      cards_offset_mask := 0x7FFF, position_offset := 3,
      card_pool := [300,301,302,303,304,305,306,307,308,309,310,311,312,313,314] }

/-- The seat record `deal_cards` creates for seat 4 of `gC5`: slots
`(8+3) % 10 = 1` and `(9+3) % 10 = 2`. -/
def seatC5 : PlayerSeat :=
  { game := 0, player := 21, seat_index := 4, chips := 500,
    hole_card_1 := 301, hole_card_2 := 302, current_bet := 0, total_bet := 0,
    is_folded := false, is_all_in := false, has_acted := false, hand_rank := 0 }

/-- The seat record `deal_cards` creates for seat 0 of `gC5`: slots
`(0+3) % 10 = 3` and `(1+3) % 10 = 4`. -/
def seatC5zero : PlayerSeat :=
  { game := 0, player := 20, seat_index := 0, chips := 500,
    hole_card_1 := 303, hole_card_2 := 304, current_bet := 0, total_bet := 0,
    is_folded := false, is_all_in := false, has_acted := false, hand_rank := 0 }

/-- Seat 0's account on the dealt trace (used for a fold sequence). -/
def sF0 : PlayerSeat := w3.seats.getD 0 default

/-- Game after seat 0 folds on the dealt trace. -/
def gF1 : PokerGame := (playerAction w3.game sF0 0 0).2.1

/-- Seat 1's account on the dealt trace (unchanged by seat 0's fold). -/
def sF1 : PlayerSeat := w3.seats.getD 1 default

/-- Game after seat 1 also folds: only one player remains. -/
def gF2 : PokerGame := (playerAction gF1 sF1 0 0).2.1

/-- A concrete 3-player PreFlop game right after blinds: `current_bet = 20`,
`last_raise_amount = 20` (big blind), action on seat 0. -/
def gC6 : PokerGame :=
  { initialGame 8 3 with
      stage := .PreFlop, pot := 30, current_bet := 20, last_raise_amount := 20,
      last_raiser := 2, action_on := 0, players_acted := 0, blinds_posted := 6,
      cards_submitted := true, offset_applied := true, offset_batch := 255,
      cards_offset_mask := 0x7FFF, position_offset := 3, cards_dealt_count := 3 }

/-- Seat 0 of `gC6`, yet to put chips in this round. -/
def sC6 : PlayerSeat :=
  { game := 0, player := 11, seat_index := 0, chips := 470,
    hole_card_1 := 303, hole_card_2 := 304, current_bet := 0, total_bet := 0,
    is_folded := false, is_all_in := false, has_acted := false, hand_rank := 0 }

/-! ## Helper lemmas -/

theorem is_card_offset_eq_testBit (g : PokerGame) (j : Nat) :
    g.is_card_offset j = g.cards_offset_mask.testBit j := by
  unfold PokerGame.is_card_offset
  simp only [Nat.testBit_to_div_mod, Nat.and_one_is_mod, Nat.shiftRight_eq_div_pow]
  cases h : g.cards_offset_mask / 2 ^ j % 2 == 1 <;> simp_all

/-- The blinding loop only writes `card_pool` and `cards_offset_mask`. -/
theorem applyCards_fields (eAdd : Nat → Nat → Nat) (offset : Nat) (l : List Nat)
    (g : PokerGame) :
    (applyCards eAdd offset l g).cards_submitted = g.cards_submitted ∧
    (applyCards eAdd offset l g).offset_applied = g.offset_applied ∧
    (applyCards eAdd offset l g).stage = g.stage ∧
    (applyCards eAdd offset l g).offset_batch = g.offset_batch ∧
    (applyCards eAdd offset l g).encrypted_offset = g.encrypted_offset ∧
    (applyCards eAdd offset l g).pot = g.pot := by
  induction l generalizing g with
  | nil => simp [applyCards]
  | cons i rest ih =>
    by_cases h : g.is_card_offset i
    · simp only [applyCards, if_pos h]
      exact ih g
    · simp only [applyCards, if_neg h]
      exact ih _

/-- The blinding loop never clears a bit of the offset mask. -/
theorem applyCards_mask_mono (eAdd : Nat → Nat → Nat) (offset : Nat) (l : List Nat)
    (g : PokerGame) (j : Nat) (hj : g.cards_offset_mask.testBit j = true) :
    (applyCards eAdd offset l g).cards_offset_mask.testBit j = true := by
  induction l generalizing g with
  | nil => simpa [applyCards] using hj
  | cons i rest ih =>
    by_cases h : g.is_card_offset i
    · simp only [applyCards, if_pos h]
      exact ih g hj
    · simp only [applyCards, if_neg h]
      exact ih _ (by simp [Nat.testBit_lor, hj])

/-- After the blinding loop, every index it visited is marked. -/
theorem applyCards_marks (eAdd : Nat → Nat → Nat) (offset : Nat) (l : List Nat)
    (g : PokerGame) (j : Nat) (hj : j ∈ l) :
    (applyCards eAdd offset l g).cards_offset_mask.testBit j = true := by
  induction l generalizing g with
  | nil => cases hj
  | cons i rest ih =>
    rcases List.mem_cons.mp hj with hji | hjr
    · subst hji
      by_cases h : g.is_card_offset j
      · simp only [applyCards, if_pos h]
        exact applyCards_mask_mono eAdd offset rest g j
          ((is_card_offset_eq_testBit g j) ▸ h)
      · simp only [applyCards, if_neg h]
        exact applyCards_mask_mono eAdd offset rest _ j
          (by simp [Nat.testBit_lor, Nat.testBit_two_pow_self])
    · by_cases h : g.is_card_offset i
      · simp only [applyCards, if_pos h]
        exact ih g hjr
      · simp only [applyCards, if_neg h]
        exact ih _ hjr

/-- The blinding loop skips every already-marked card: if all indices it is
asked to visit are marked, it is the identity. -/
theorem applyCards_skip (eAdd : Nat → Nat → Nat) (offset : Nat) (l : List Nat)
    (g : PokerGame) (h : ∀ j ∈ l, g.is_card_offset j = true) :
    applyCards eAdd offset l g = g := by
  induction l with
  | nil => simp [applyCards]
  | cons i rest ih =>
    have hi : g.is_card_offset i = true := h i (List.mem_cons_self i rest)
    simp only [applyCards, if_pos hi]
    exact ih (fun j hj => h j (List.mem_cons_of_mem i hj))

/-! ## Claim C5: position rotation of dealt hole cards -/

/-- C5: whenever `deal_cards` succeeds for seat `s`, the created seat receives
the pool slots `(2*s + j + position_offset) % 10` for `j ∈ {0, 1}`. -/
theorem dealCards_rotation (table : PokerTable) (g : PokerGame)
    (game_key player_key seat_index buy_in : Nat) (g' : PokerGame) (seat : PlayerSeat)
    (h : dealCards table g game_key player_key seat_index buy_in = (none, g', some seat)) :
    seat.hole_card_1 = g.card_pool.getD ((2 * seat_index + g.position_offset) % 10) 0 ∧
    seat.hole_card_2 = g.card_pool.getD ((2 * seat_index + 1 + g.position_offset) % 10) 0 ∧
    seat.seat_index = seat_index := by
  simp only [dealCards] at h
  split_ifs at h <;> try exact Option.noConfusion (congrArg Prod.fst h)
  all_goals
    have hseat := Option.some.inj (congrArg (fun p => p.2.2) h)
    refine ⟨?_, ?_, ?_⟩ <;> rw [← hseat] <;> simp [Nat.mul_comm]

/-- Witness for C5 at `position_offset = 3`: seat 0 receives slots 3 and 4
and seat 4 receives slots 1 and 2 (wraparound). -/
theorem dealCards_rotation_witness :
    (seatC5.hole_card_1 = gC5.card_pool.getD ((2 * 4 + gC5.position_offset) % 10) 0 ∧
     seatC5.hole_card_2 = gC5.card_pool.getD ((2 * 4 + 1 + gC5.position_offset) % 10) 0 ∧
     seatC5.hole_card_1 = 301 ∧ seatC5.hole_card_2 = 302) ∧
    (seatC5zero.hole_card_1 = gC5.card_pool.getD ((2 * 0 + gC5.position_offset) % 10) 0 ∧
     seatC5zero.hole_card_2 = gC5.card_pool.getD ((2 * 0 + 1 + gC5.position_offset) % 10) 0 ∧
     seatC5zero.hole_card_1 = 303 ∧ seatC5zero.hole_card_2 = 304) := by
  have h4 := dealCards_rotation tableC gC5 0 21 4 500
    { gC5 with cards_dealt_count := 1 } seatC5 (by decide)
  have h0 := dealCards_rotation tableC gC5 0 20 0 500
    { gC5 with cards_dealt_count := 1 } seatC5zero (by decide)
  exact ⟨⟨h4.1, h4.2.1, by decide, by decide⟩, ⟨h0.1, h0.2.1, by decide, by decide⟩⟩

/-! ## Claim C8: position offset generated exactly once -/

/-- C8: `generate_offset` succeeds exactly when `cards_submitted`,
`offset_applied`, `position_offset = 0` and `stage = Waiting`; on success it
stores `(slot_byte % 10) + 1 ∈ [1, 10]` (never 0); and once `position_offset`
is non-zero every further call fails with `PositionOffsetAlreadySet` and
leaves the game unchanged, so the offset is never overwritten. -/
theorem generateOffset_exactly_once (slot : Nat) (g : PokerGame) :
    ((generateOffset slot g).1 = none ↔
      (g.cards_submitted = true ∧ g.offset_applied = true ∧
       g.position_offset = 0 ∧ g.stage = .Waiting)) ∧
    ((generateOffset slot g).1 = none →
      (generateOffset slot g).2.position_offset = slot % 256 % 10 + 1 ∧
      1 ≤ (generateOffset slot g).2.position_offset ∧
      (generateOffset slot g).2.position_offset ≤ 10) ∧
    (g.cards_submitted = true → g.offset_applied = true → g.position_offset ≠ 0 →
      generateOffset slot g = (some .PositionOffsetAlreadySet, g)) := by
  have hb : slot % 256 % 10 < 10 := Nat.mod_lt _ (by norm_num)
  unfold generateOffset
  split_ifs <;> simp_all
  omega

/-- Witness for C8: a concrete successful generation on the executed trace
(slot 42 gives offset 3) followed by a failing regeneration attempt. -/
theorem generateOffset_exactly_once_witness :
    (generateOffset 42 gO3).1 = none ∧
    (generateOffset 42 gO3).2.position_offset = 3 ∧
    1 ≤ (generateOffset 42 gO3).2.position_offset ∧
    (generateOffset 42 gO3).2.position_offset ≤ 10 ∧
    generateOffset 57 (generateOffset 42 gO3).2 =
      (some .PositionOffsetAlreadySet, (generateOffset 42 gO3).2) := by
  have h1 : (generateOffset 42 gO3).1 = none :=
    (generateOffset_exactly_once 42 gO3).1.mpr (by decide)
  have h2 := (generateOffset_exactly_once 42 gO3).2.1 h1
  have h3 := (generateOffset_exactly_once 57 (generateOffset 42 gO3).2).2.2
    (by decide) (by decide) (by decide)
  exact ⟨h1, by decide, h2.2.1, h2.2.2, h3⟩

/-! ## Claim C1 (corrected): batch re-submission -/

/-- C1 (amended): while batch `k`'s bit is still set in the submission
tracking mask — i.e. batch `k` has landed but not yet all three — any further
`submit_cards` call for batch `k` fails with `CardsAlreadySubmitted` and
leaves the game (in particular the card pool) unchanged. Once all three
batches have landed the tracking mask is reset to 0 for community-card
tracking, so this guard no longer fires (see the counterexample). -/
theorem submitCards_resubmit_fails (ingest : Nat → Nat → Nat) (g : PokerGame)
    (batch_index c0 c1 c2 c3 c4 input_type : Nat)
    (hstage : g.stage = .Waiting) (hk : batch_index < 3)
    (hbit : ¬ (g.community_revealed &&& 2 ^ batch_index = 0)) :
    submitCards ingest g batch_index c0 c1 c2 c3 c4 input_type =
      (some .CardsAlreadySubmitted, g) := by
  simp [submitCards, hstage, hk, hbit]

/-- Witness for the amended C1: on the executed trace, retrying batch 0 after
only batch 0 has landed fails with `CardsAlreadySubmitted` and changes
nothing. -/
theorem submitCards_resubmit_fails_witness :
    submitCards ingC gS1 0 200 201 202 203 204 0 =
      (some .CardsAlreadySubmitted, gS1) :=
  submitCards_resubmit_fails ingC gS1 0 200 201 202 203 204 0
    (by decide) (by decide) (by decide)

/-- Counterexample to C1 as stated: batches 0, 1 and 2 each land successfully
(`gS1`, `gS2`, `gS3` are the successive post-states and no step errors), after
which `cards_submitted` is true — yet a later `submit_cards` call for batch 0
does NOT fail: it succeeds and overwrites pool slots 0–4. -/
theorem submitCards_resubmit_after_completion_succeeds :
    (submitCards ingC g0 0 100 101 102 103 104 0).1 = none ∧
    (submitCards ingC gS1 1 105 106 107 108 109 0).1 = none ∧
    (submitCards ingC gS2 2 110 111 112 113 114 0).1 = none ∧
    gS3.cards_submitted = true ∧
    (submitCards ingC gS3 0 200 201 202 203 204 0).1 = none ∧
    (submitCards ingC gS3 0 200 201 202 203 204 0).2.card_pool =
      [200,201,202,203,204,105,106,107,108,109,110,111,112,113,114] := by
  decide

/-! ## Claim C2 (corrected): sequencing preconditions of dealing -/

/-- C2 (amended): `deal_cards` succeeds only when `cards_submitted` and
`offset_applied` both hold — failing with the sequencing errors
`CardsNotSubmitted` resp. `OffsetNotApplied` (and no state change, no seat
created) while either is unset — but it does NOT require `position_offset` to
have been generated: its success condition is exactly the stated one, with no
condition on `position_offset`. -/
theorem dealCards_sequencing (table : PokerTable) (g : PokerGame)
    (game_key player_key seat_index buy_in : Nat) :
    (g.cards_submitted = false →
      dealCards table g game_key player_key seat_index buy_in =
        (some .CardsNotSubmitted, g, none)) ∧
    (g.cards_submitted = true → g.offset_applied = false →
      dealCards table g game_key player_key seat_index buy_in =
        (some .OffsetNotApplied, g, none)) ∧
    ((dealCards table g game_key player_key seat_index buy_in).1 = none ↔
      (g.cards_submitted = true ∧ g.offset_applied = true ∧ g.stage = .Waiting ∧
       seat_index < g.player_count ∧
       table.buy_in_min ≤ buy_in ∧ buy_in ≤ table.buy_in_max ∧
       g.cards_dealt_count < g.player_count)) := by
  have m1 : (seat_index * 2 + g.position_offset) % 10 < 10 := Nat.mod_lt _ (by norm_num)
  have m2 : (seat_index * 2 + 1 + g.position_offset) % 10 < 10 := Nat.mod_lt _ (by norm_num)
  refine ⟨fun h1 => ?_, fun h1 h2 => ?_, ?_⟩
  · simp [dealCards, h1]
  · simp [dealCards, h1, h2]
  · simp only [dealCards]
    split_ifs <;> simp_all

/-- Witness for the amended C2: on the executed trace (cards submitted and
blinded, `generate_offset` never called) the two sequencing errors fire
before submission resp. before blinding, and dealing seat 0 succeeds
afterwards by the success characterisation. -/
theorem dealCards_sequencing_witness :
    dealCards tableC g0 0 11 0 500 = (some .CardsNotSubmitted, g0, none) ∧
    dealCards tableC gS3 0 11 0 500 = (some .OffsetNotApplied, gS3, none) ∧
    (dealCards tableC gO3 0 11 0 500).1 = none := by
  refine ⟨(dealCards_sequencing tableC g0 0 11 0 500).1 (by decide),
          (dealCards_sequencing tableC gS3 0 11 0 500).2.1 (by decide) (by decide),
          (dealCards_sequencing tableC gO3 0 11 0 500).2.2.mpr (by decide)⟩

/-- Counterexample to C2 as stated: `gO3` is reached by running the three
submit batches and the three blinding batches from the initial state, so
`cards_submitted` and `offset_applied` hold but `position_offset` is still
the unset sentinel 0 (`generate_offset` was never called) — yet `deal_cards`
succeeds and creates a seat. -/
theorem dealCards_succeeds_without_position_offset :
    gO3.position_offset = 0 ∧ gO3.cards_submitted = true ∧
    gO3.offset_applied = true ∧
    (dealCards tableC gO3 0 11 0 500).1 = none ∧
    (dealCards tableC gO3 0 11 0 500).2.2.isSome = true := by
  decide

/-- Effect of a successful Fold on the round counters: `players_remaining`
drops by one and hitting exactly 1 forces Showdown. -/
theorem fold_effect (g : PokerGame) (seat : PlayerSeat) (r : Nat)
    (g' : PokerGame) (s' : PlayerSeat)
    (h : playerAction g seat 0 r = (none, g', s')) :
    g'.players_remaining = g.players_remaining - 1 ∧
    (g'.players_remaining = 1 → g'.stage = .Showdown) := by
  simp only [playerAction, show decodeAction 0 = some BetAction.Fold from rfl] at h
  split_ifs at h <;> try exact Option.noConfusion (congrArg Prod.fst h)
  all_goals
    simp only [playerActionFinish, Prod.mk.injEq] at h
    obtain ⟨-, hg, -⟩ := h
    rw [← hg]
    simp_all

/-! ## Claim C7: fold decrement and single-survivor shortcut -/

/-- C7: a successful Fold decrements `players_remaining` by one and forces
`Showdown` when it drops it to exactly 1; consequently, in a hand with
`players_remaining = 3`, two successive successful Folds leave the game at
Showdown. -/
theorem fold_single_survivor_shortcut :
    (∀ (g : PokerGame) (seat : PlayerSeat) (r : Nat) (g' : PokerGame) (s' : PlayerSeat),
       playerAction g seat 0 r = (none, g', s') →
       g'.players_remaining = g.players_remaining - 1 ∧
       (g'.players_remaining = 1 → g'.stage = .Showdown)) ∧
    (∀ (g g1 g2 : PokerGame) (seat1 seat2 : PlayerSeat) (r1 r2 : Nat)
       (s1 s2 : PlayerSeat),
       g.players_remaining = 3 →
       playerAction g seat1 0 r1 = (none, g1, s1) →
       playerAction g1 seat2 0 r2 = (none, g2, s2) →
       g2.stage = .Showdown) := by
  refine ⟨fun g seat r g' s' h => fold_effect g seat r g' s' h, ?_⟩
  intro g g1 g2 seat1 seat2 r1 r2 s1 s2 h3 h1 h2
  have e1 := fold_effect g seat1 r1 g1 s1 h1
  have e2 := fold_effect g1 seat2 r2 g2 s2 h2
  exact e2.2 (by omega)

/-- Witness for C7: on the executed 3-player trace, seat 0 folds, then seat 1
folds, and the game is at Showdown. -/
theorem fold_single_survivor_shortcut_witness :
    w3.game.players_remaining = 3 ∧
    (playerAction w3.game sF0 0 0).1 = none ∧
    (playerAction gF1 sF1 0 0).1 = none ∧
    gF2.stage = .Showdown := by
  refine ⟨by decide, by decide, by decide, ?_⟩
  exact fold_single_survivor_shortcut.2 w3.game gF1 gF2 sF0 sF1 0 0
    (playerAction w3.game sF0 0 0).2.2 (playerAction gF1 sF1 0 0).2.2
    (by decide) (by decide) (by decide)

/-! ## Claim C6 (corrected): minimum-raise rule and raise effects -/

/-- C6 (amended): with the actor on turn in a betting stage, a Raise below
`last_raise_amount` (or below `current_bet` when no raise has occurred, i.e.
`last_raise_amount = 0`) fails with `RaiseTooSmall` and changes nothing; a
Raise meeting the minimum with sufficient chips succeeds; and a successful
Raise sets `current_bet` to the actor's new per-round bet, `last_raise_amount`
to the raise amount, `last_raiser` to the actor, and resets `players_acted` to
0 before the common post-action increment, so the post-state has
`players_acted = 1` (not 0 as claimed). -/
theorem playerAction_raise_rules (g : PokerGame) (seat : PlayerSeat) (r : Nat)
    (hturn : seat.seat_index = g.action_on)
    (hf : g.is_folded seat.seat_index = false)
    (ha : g.is_all_in seat.seat_index = false)
    (hstage : ¬ (g.stage = .Waiting ∨ g.stage = .Showdown ∨ g.stage = .Finished)) :
    (r < (if 0 < g.last_raise_amount then g.last_raise_amount else g.current_bet) →
       playerAction g seat 3 r = (some .RaiseTooSmall, g, seat)) ∧
    ((if 0 < g.last_raise_amount then g.last_raise_amount else g.current_bet) ≤ r →
     (g.current_bet - seat.current_bet) + r ≤ seat.chips →
       (playerAction g seat 3 r).1 = none) ∧
    (∀ (g' : PokerGame) (seat' : PlayerSeat),
       playerAction g seat 3 r = (none, g', seat') →
       seat'.current_bet = seat.current_bet + ((g.current_bet - seat.current_bet) + r) ∧
       g'.current_bet = seat'.current_bet ∧
       g'.last_raise_amount = r ∧
       g'.last_raiser = seat.seat_index ∧
       g'.players_acted = 1) := by
  refine ⟨fun hsmall => ?_, fun hmin hchips => ?_, fun g' seat' h => ?_⟩
  · simp [playerAction, show decodeAction 3 = some BetAction.Raise from rfl,
      hturn, hturn ▸ hf, hturn ▸ ha, hstage, not_le.mpr hsmall]
  · simp [playerAction, show decodeAction 3 = some BetAction.Raise from rfl,
      hturn, hturn ▸ hf, hturn ▸ ha, hstage, hmin, hchips, playerActionFinish]
  · simp only [playerAction, show decodeAction 3 = some BetAction.Raise from rfl] at h
    split_ifs at h <;> try exact Option.noConfusion (congrArg Prod.fst h)
    all_goals
      simp only [playerActionFinish, Prod.mk.injEq] at h
      obtain ⟨-, hg, hs⟩ := h
      rw [← hg, ← hs]
      simp

/-- Witness for the amended C6 at the claim's own numbers
(`current_bet = 20`, `last_raise_amount = 20`): a raise of 10 fails with
`RaiseTooSmall`, a raise of 20 succeeds with `last_raise_amount = 20`, the
actor's bet rises to 40, and `players_acted` ends at 1. -/
theorem playerAction_raise_rules_witness :
    playerAction gC6 sC6 3 10 = (some .RaiseTooSmall, gC6, sC6) ∧
    (playerAction gC6 sC6 3 20).1 = none ∧
    (playerAction gC6 sC6 3 20).2.1.last_raise_amount = 20 ∧
    (playerAction gC6 sC6 3 20).2.1.current_bet = 40 ∧
    (playerAction gC6 sC6 3 20).2.1.players_acted = 1 := by
  refine ⟨(playerAction_raise_rules gC6 sC6 10 (by decide) (by decide) (by decide)
            (by decide)).1 (by decide),
          (playerAction_raise_rules gC6 sC6 20 (by decide) (by decide) (by decide)
            (by decide)).2.1 (by decide) (by decide),
          by decide, by decide, by decide⟩

/-- Counterexample to C6 as stated: the successful raise of 20 on `gC6` (a
reachable PreFlop state with `current_bet = 20`, `last_raise_amount = 20`)
leaves `players_acted = 1`, not 0 — the reset to 0 happens before the common
post-action increment. -/
theorem playerAction_raise_players_acted_not_zero :
    (playerAction gC6 sC6 3 20).1 = none ∧
    (playerAction gC6 sC6 3 20).2.1.players_acted = 1 ∧
    ¬ (playerAction gC6 sC6 3 20).2.1.players_acted = 0 := by
  decide

/-- The blinding body marks every card of its batch range. -/
theorem applyOffsetBatchBody_marks (rand : Nat) (eAdd : Nat → Nat → Nat)
    (g : PokerGame) (k j : Nat)
    (hj : j ∈ List.range' (k * 5) (min ((k + 1) * 5) 15 - k * 5)) :
    (applyOffsetBatchBody rand eAdd g k).2.cards_offset_mask.testBit j = true := by
  simp only [applyOffsetBatchBody]
  split_ifs <;> exact applyCards_marks _ _ _ _ j hj

theorem applyCards_cards_submitted (eAdd : Nat → Nat → Nat) (offset : Nat)
    (l : List Nat) (g : PokerGame) :
    (applyCards eAdd offset l g).cards_submitted = g.cards_submitted :=
  (applyCards_fields eAdd offset l g).1

theorem applyCards_offset_applied (eAdd : Nat → Nat → Nat) (offset : Nat)
    (l : List Nat) (g : PokerGame) :
    (applyCards eAdd offset l g).offset_applied = g.offset_applied :=
  (applyCards_fields eAdd offset l g).2.1

theorem applyCards_stage (eAdd : Nat → Nat → Nat) (offset : Nat)
    (l : List Nat) (g : PokerGame) :
    (applyCards eAdd offset l g).stage = g.stage :=
  (applyCards_fields eAdd offset l g).2.2.1

theorem applyCards_offset_batch (eAdd : Nat → Nat → Nat) (offset : Nat)
    (l : List Nat) (g : PokerGame) :
    (applyCards eAdd offset l g).offset_batch = g.offset_batch :=
  (applyCards_fields eAdd offset l g).2.2.2.1

theorem applyCards_encrypted_offset (eAdd : Nat → Nat → Nat) (offset : Nat)
    (l : List Nat) (g : PokerGame) :
    (applyCards eAdd offset l g).encrypted_offset = g.encrypted_offset :=
  (applyCards_fields eAdd offset l g).2.2.2.2.1

theorem applyCards_pot (eAdd : Nat → Nat → Nat) (offset : Nat)
    (l : List Nat) (g : PokerGame) :
    (applyCards eAdd offset l g).pot = g.pot :=
  (applyCards_fields eAdd offset l g).2.2.2.2.2

/-- The blinding body succeeds and does not touch `cards_submitted` or
`stage`. -/
theorem applyOffsetBatchBody_fields (rand : Nat) (eAdd : Nat → Nat → Nat)
    (g : PokerGame) (k : Nat) :
    (applyOffsetBatchBody rand eAdd g k).1 = none ∧
    (applyOffsetBatchBody rand eAdd g k).2.cards_submitted = g.cards_submitted ∧
    (applyOffsetBatchBody rand eAdd g k).2.stage = g.stage := by
  simp only [applyOffsetBatchBody]
  split_ifs <;> simp [applyCards_cards_submitted, applyCards_stage]

/-- For batches 0 and 1 the body bumps `offset_batch` to `k + 1`, leaves
`offset_applied` alone, and redraws the encrypted offset only on the first
invocation of batch 0. -/
theorem applyOffsetBatchBody_not_last (rand : Nat) (eAdd : Nat → Nat → Nat)
    (g : PokerGame) (k : Nat) (hk2 : ¬ (k = 2)) :
    (applyOffsetBatchBody rand eAdd g k).2.offset_batch = k + 1 ∧
    (applyOffsetBatchBody rand eAdd g k).2.offset_applied = g.offset_applied ∧
    (applyOffsetBatchBody rand eAdd g k).2.encrypted_offset =
      (if k = 0 ∧ g.offset_batch = 0 then rand else g.encrypted_offset) := by
  simp only [applyOffsetBatchBody]
  split_ifs with h1 h2 h2 <;>
    simp_all [applyCards_offset_batch, applyCards_encrypted_offset,
      applyCards_offset_applied]

/-- For batch 2 the body either completes the protocol (`offset_applied`
set) or leaves an incomplete mask with `offset_batch = 3`. -/
theorem applyOffsetBatchBody_last (rand : Nat) (eAdd : Nat → Nat → Nat)
    (g : PokerGame) :
    (applyOffsetBatchBody rand eAdd g 2).2.offset_applied = true ∨
    ((applyOffsetBatchBody rand eAdd g 2).2.offset_batch = 3 ∧
     (applyOffsetBatchBody rand eAdd g 2).2.offset_applied = g.offset_applied ∧
     ¬ ((applyOffsetBatchBody rand eAdd g 2).2.cards_offset_mask = 0x7FFF) ∧
     (applyOffsetBatchBody rand eAdd g 2).2.encrypted_offset = g.encrypted_offset) := by
  simp only [applyOffsetBatchBody]
  split_ifs with h1 h2 <;>
    simp_all [PokerGame.all_cards_offset, applyCards_offset_batch,
      applyCards_encrypted_offset, applyCards_offset_applied]

/-! ## Claim C4: blinding batches are idempotent under retry -/

/-- C4: after a successful `apply_offset_batch` for batch `k` has produced
`g1`, immediately retrying batch `k` on `g1` — with arbitrary fresh oracle
values for `e_rand` and `e_add` — leaves `card_pool` and `cards_offset_mask`
exactly as in `g1` (already-blinded slots are skipped, or the call is
rejected outright once `offset_applied` is set after batch 2), and the
encrypted offset is never re-drawn. -/
theorem applyOffsetBatch_retry_idempotent (rand : Nat) (eAdd : Nat → Nat → Nat)
    (g g1 : PokerGame) (batch_index : Nat)
    (h : applyOffsetBatch rand eAdd g batch_index = (none, g1)) :
    ∀ (rand2 : Nat) (eAdd2 : Nat → Nat → Nat),
      (applyOffsetBatch rand2 eAdd2 g1 batch_index).2.card_pool = g1.card_pool ∧
      (applyOffsetBatch rand2 eAdd2 g1 batch_index).2.cards_offset_mask =
        g1.cards_offset_mask ∧
      (applyOffsetBatch rand2 eAdd2 g1 batch_index).2.encrypted_offset =
        g1.encrypted_offset := by
  intro rand2 eAdd2
  unfold applyOffsetBatch at h
  split_ifs at h with hc1 hc2 hc3 hc4 hc5 hc6 <;>
    try exact Option.noConfusion (congrArg Prod.fst h)
  have hsub := hc1
  have happ := hc2
  have hstage := hc3
  have hk := hc4
  have hg1 : (applyOffsetBatchBody rand eAdd g batch_index).2 = g1 := by rw [h]
  have hF := applyOffsetBatchBody_fields rand eAdd g batch_index
  have hmark : ∀ j ∈ List.range' (batch_index * 5) (min ((batch_index + 1) * 5) 15
      - batch_index * 5), g1.is_card_offset j = true := by
    intro j hj
    rw [is_card_offset_eq_testBit, ← hg1]
    exact applyOffsetBatchBody_marks rand eAdd g batch_index j hj
  have hsub1 : g1.cards_submitted = true := by rw [← hg1, hF.2.1, hsub]
  have hstage1 : g1.stage = .Waiting := by rw [← hg1, hF.2.2, hstage]
  rcases (by omega : batch_index = 0 ∨ batch_index = 1 ∨ batch_index = 2)
    with hb | hb | hb <;> subst hb
  · -- batch 0: offset_batch is now 1, nothing is redrawn, all slots skipped
    have hnl := applyOffsetBatchBody_not_last rand eAdd g 0 (by omega)
    have hob1 : g1.offset_batch = 1 := by rw [← hg1]; exact hnl.1
    have happ1 : g1.offset_applied = false := by rw [← hg1, hnl.2.1, happ]
    have hskip := applyCards_skip eAdd2 g1.encrypted_offset
      (List.range' 0 5) g1 (fun j hj => hmark j hj)
    simp [applyOffsetBatch, applyOffsetBatchBody, hsub1, happ1, hstage1, hob1,
      hskip]
  · -- batch 1: offset_batch is now 2
    have hnl := applyOffsetBatchBody_not_last rand eAdd g 1 (by omega)
    have hob1 : g1.offset_batch = 2 := by rw [← hg1]; exact hnl.1
    have happ1 : g1.offset_applied = false := by rw [← hg1, hnl.2.1, happ]
    have hskip := applyCards_skip eAdd2 g1.encrypted_offset
      (List.range' 5 5) g1 (fun j hj => hmark j hj)
    simp [applyOffsetBatch, applyOffsetBatchBody, hsub1, happ1, hstage1, hob1,
      hskip]
  · -- batch 2: either the protocol completed (retry rejected) or the
    -- incomplete retry skips everything
    rcases applyOffsetBatchBody_last rand eAdd g with hdone | ⟨hob, hap, hmask, -⟩
    · have happ1 : g1.offset_applied = true := by rw [← hg1]; exact hdone
      simp [applyOffsetBatch, happ1, hsub1]
    · have hob1 : g1.offset_batch = 3 := by rw [← hg1]; exact hob
      have happ1 : g1.offset_applied = false := by rw [← hg1, hap, happ]
      have hmask1 : ¬ (g1.cards_offset_mask = 0x7FFF) := by rw [← hg1]; exact hmask
      have hskip := applyCards_skip eAdd2 g1.encrypted_offset
        (List.range' 10 5) g1 (fun j hj => hmark j hj)
      simp [applyOffsetBatch, applyOffsetBatchBody, hsub1, happ1, hstage1, hob1,
        hskip, PokerGame.all_cards_offset, hmask1]

/-- Witness for C4: retrying batch 0 on the executed trace with different
oracle values changes neither the pool, nor the mask, nor the stored
encrypted offset. -/
theorem applyOffsetBatch_retry_idempotent_witness :
    (applyOffsetBatch 999 (fun a b => a * b + 7) gO1 0).2.card_pool = gO1.card_pool ∧
    (applyOffsetBatch 999 (fun a b => a * b + 7) gO1 0).2.cards_offset_mask =
      gO1.cards_offset_mask ∧
    (applyOffsetBatch 999 (fun a b => a * b + 7) gO1 0).2.encrypted_offset =
      gO1.encrypted_offset :=
  applyOffsetBatch_retry_idempotent 1000 eAddC gS3 gO1 0 (by decide)
    999 (fun a b => a * b + 7)

/-- `getD` through the per-round reset map (the reset of the default seat is
the default seat, so the out-of-range case agrees too). -/
theorem getD_map_reset (l : List PlayerSeat) (i : Nat) :
    (l.map resetSeatForNewRound).getD i default =
      resetSeatForNewRound (l.getD i default) := by
  induction l generalizing i with
  | nil => cases i <;> rfl
  | cons hd tl ih => cases i with
    | zero => rfl
    | succ n => exact ih n

/-! ## Claim C10: advance_stage resets every supplied seat uniformly -/

/-- C10: when `advance_stage` succeeds with more than one player remaining,
every supplied seat account — folded and all-in seats included — ends with
`current_bet = 0` and `has_acted = false`, and every other seat field (chips,
total_bet, hole cards, fold/all-in flags, hand rank, identity) is exactly as
before. -/
theorem advanceStage_round_reset (g : PokerGame) (seats : List PlayerSeat)
    (g' : PokerGame) (seats' : List PlayerSeat)
    (hrem : 1 < g.players_remaining)
    (h : advanceStage g seats = (none, g', seats')) :
    seats'.length = seats.length ∧
    ∀ i, i < seats.length →
      (seats'.getD i default).current_bet = 0 ∧
      (seats'.getD i default).has_acted = false ∧
      (seats'.getD i default).chips = (seats.getD i default).chips ∧
      (seats'.getD i default).total_bet = (seats.getD i default).total_bet ∧
      (seats'.getD i default).hole_card_1 = (seats.getD i default).hole_card_1 ∧
      (seats'.getD i default).hole_card_2 = (seats.getD i default).hole_card_2 ∧
      (seats'.getD i default).is_folded = (seats.getD i default).is_folded ∧
      (seats'.getD i default).is_all_in = (seats.getD i default).is_all_in ∧
      (seats'.getD i default).hand_rank = (seats.getD i default).hand_rank ∧
      (seats'.getD i default).seat_index = (seats.getD i default).seat_index ∧
      (seats'.getD i default).player = (seats.getD i default).player ∧
      (seats'.getD i default).game = (seats.getD i default).game := by
  have hseats : seats' = seats.map resetSeatForNewRound := by
    unfold advanceStage at h
    split_ifs at h with h1 h2
    · exact Option.noConfusion (congrArg Prod.fst h)
    · omega
    · cases hstage : g.stage <;> rw [hstage] at h <;>
        simp_all [GameStage.next, Prod.mk.injEq]
  subst hseats
  refine ⟨by simp, fun i hi => ?_⟩
  rw [getD_map_reset]
  simp [resetSeatForNewRound]

/-- Witness for C10: advancing the executed hand from PreFlop resets seat 1's
`current_bet` from 10 to 0 and `has_acted` to false while keeping its chips
(485) and `total_bet` (10). -/
theorem advanceStage_round_reset_witness :
    (advanceStage w6.game w6.seats).1 = none ∧
    (w6.seats.getD 1 default).current_bet = 10 ∧
    ((advanceStage w6.game w6.seats).2.2.getD 1 default).current_bet = 0 ∧
    ((advanceStage w6.game w6.seats).2.2.getD 1 default).has_acted = false ∧
    ((advanceStage w6.game w6.seats).2.2.getD 1 default).chips = 485 ∧
    ((advanceStage w6.game w6.seats).2.2.getD 1 default).total_bet = 10 := by
  have hthm := advanceStage_round_reset w6.game w6.seats
    (advanceStage w6.game w6.seats).2.1 (advanceStage w6.game w6.seats).2.2
    (by decide) (by decide)
  obtain ⟨hc, hh, hchips, htb, -⟩ := hthm.2 1 (by decide)
  refine ⟨by decide, by decide, hc, hh, ?_, ?_⟩
  · rw [hchips]; decide
  · rw [htb]; decide

/-- The blinding body never errors (all of its checks came before it). -/
theorem applyOffsetBatchBody_ok (rand : Nat) (eAdd : Nat → Nat → Nat)
    (g : PokerGame) (k : Nat) :
    (applyOffsetBatchBody rand eAdd g k).1 = none :=
  (applyOffsetBatchBody_fields rand eAdd g k).1

/-! ## Claim C9: failed precondition checks never mutate state -/

set_option maxHeartbeats 1600000 in
/-- C9: every modelled handler stages all of its `require!` validation before
any mutation: whenever a call returns a typed error, the game — and every
seat account passed to the call — is returned exactly as it was at entry. (In
the embedding an erroring handler returns the state as of the failing check,
mirroring the source's early returns; for `advance_stage` this includes
showing that the one error arm occurring after the seat resets is dead,
because the stage guard already excludes `Finished`.) -/
theorem error_implies_no_mutation :
    (∀ (ing : Nat → Nat → Nat) (g : PokerGame) (k c0 c1 c2 c3 c4 t : Nat)
       (e : PokerError) (g2 : PokerGame),
       submitCards ing g k c0 c1 c2 c3 c4 t = (some e, g2) → g2 = g) ∧
    (∀ (rand : Nat) (eAdd : Nat → Nat → Nat) (g : PokerGame) (k : Nat)
       (e : PokerError) (g2 : PokerGame),
       applyOffsetBatch rand eAdd g k = (some e, g2) → g2 = g) ∧
    (∀ (slot : Nat) (g : PokerGame) (e : PokerError) (g2 : PokerGame),
       generateOffset slot g = (some e, g2) → g2 = g) ∧
    (∀ (table : PokerTable) (g : PokerGame) (gk pk s b : Nat)
       (e : PokerError) (g2 : PokerGame) (so : Option PlayerSeat),
       dealCards table g gk pk s b = (some e, g2, so) → g2 = g ∧ so = none) ∧
    (∀ (table : PokerTable) (g : PokerGame) (sb bb : PlayerSeat)
       (e : PokerError) (g2 : PokerGame) (sb2 bb2 : PlayerSeat),
       postBlinds table g sb bb = (some e, g2, sb2, bb2) →
       g2 = g ∧ sb2 = sb ∧ bb2 = bb) ∧
    (∀ (g : PokerGame) (seat : PlayerSeat) (a r : Nat)
       (e : PokerError) (g2 : PokerGame) (seat2 : PlayerSeat),
       playerAction g seat a r = (some e, g2, seat2) → g2 = g ∧ seat2 = seat) ∧
    (∀ (g : PokerGame) (seats : List PlayerSeat)
       (e : PokerError) (g2 : PokerGame) (seats2 : List PlayerSeat),
       advanceStage g seats = (some e, g2, seats2) → g2 = g ∧ seats2 = seats) := by
  refine ⟨?_, ?_, ?_, ?_, ?_, ?_, ?_⟩
  · intro ing g k c0 c1 c2 c3 c4 t e g2 hEq
    simp only [submitCards] at hEq
    split_ifs at hEq <;> injection hEq with h1 h2 <;>
      first
        | exact Option.noConfusion h1
        | exact h2.symm
  · intro rand eAdd g k e g2 hEq
    simp only [applyOffsetBatch] at hEq
    split_ifs at hEq <;>
      first
        | exact Option.noConfusion
            ((applyOffsetBatchBody_ok rand eAdd g k) ▸ congrArg Prod.fst hEq)
        | (injection hEq with h1 h2; exact h2.symm)
  · intro slot g e g2 hEq
    simp only [generateOffset] at hEq
    split_ifs at hEq <;> injection hEq with h1 h2 <;>
      first
        | exact Option.noConfusion h1
        | exact h2.symm
  · intro table g gk pk s b e g2 so hEq
    simp only [dealCards] at hEq
    split_ifs at hEq <;> injection hEq with h1 h2 <;>
      first
        | exact Option.noConfusion h1
        | (injection h2 with h3 h4; exact ⟨h3.symm, h4.symm⟩)
  · intro table g sb bb e g2 sb2 bb2 hEq
    simp only [postBlinds] at hEq
    split_ifs at hEq <;> injection hEq with h1 h2 <;>
      first
        | exact Option.noConfusion h1
        | (injection h2 with h3 h4; injection h4 with h5 h6;
           exact ⟨h3.symm, h5.symm, h6.symm⟩)
  · intro g seat a r e g2 seat2 hEq
    rcases hd : decodeAction a with _ | act
    · simp only [playerAction, hd] at hEq
      injection hEq with h1 h2
      injection h2 with h3 h4
      exact ⟨h3.symm, h4.symm⟩
    · cases act <;>
        (simp only [playerAction, hd] at hEq
         split_ifs at hEq <;>
           first
             | exact Option.noConfusion (congrArg Prod.fst hEq)
             | (injection hEq with h1 h2; injection h2 with h3 h4;
                exact ⟨h3.symm, h4.symm⟩))
  · intro g seats e g2 seats2 hEq
    unfold advanceStage at hEq
    split_ifs at hEq with h1 h2
    · injection hEq with h1' h2'
      injection h2' with h3 h4
      exact ⟨h3.symm, h4.symm⟩
    · exact Option.noConfusion (congrArg Prod.fst hEq)
    · cases hstage : g.stage <;>
        first
          | (rw [hstage] at h1; exact absurd (Or.inl rfl) h1)
          | (rw [hstage] at h1; exact absurd (Or.inr rfl) h1)
          | (rw [hstage] at hEq; exact Option.noConfusion (congrArg Prod.fst hEq))

/-- Witness for C9: a `submit_cards` call in the wrong stage (PreFlop) errors
and returns the game unchanged, and a `player_action` by a seat that is not
on action errors and changes neither the game nor the seat. -/
theorem error_implies_no_mutation_witness :
    ((submitCards ingC gC6 0 1 2 3 4 5 0).1).isSome = true ∧
    (submitCards ingC gC6 0 1 2 3 4 5 0).2 = gC6 ∧
    ((playerAction gC6 { sC6 with seat_index := 2 } 2 0).1).isSome = true ∧
    (playerAction gC6 { sC6 with seat_index := 2 } 2 0).2.1 = gC6 := by
  refine ⟨by decide, ?_, by decide, ?_⟩
  · exact error_implies_no_mutation.1 ingC gC6 0 1 2 3 4 5 0 .InvalidGameStage
      (submitCards ingC gC6 0 1 2 3 4 5 0).2 (by decide)
  · exact (error_implies_no_mutation.2.2.2.2.2.1 gC6 { sC6 with seat_index := 2 } 2 0
      .NotYourTurn (playerAction gC6 { sC6 with seat_index := 2 } 2 0).2.1
      (playerAction gC6 { sC6 with seat_index := 2 } 2 0).2.2 (by decide)).1

/-- Replacing the seat at position `i` changes the `total_bet` sum by the
difference of the old and new seats' `total_bet`. -/
theorem sum_total_bet_set (l : List PlayerSeat) (i : Nat) (s : PlayerSeat)
    (h : i < l.length) :
    (((l.set i s).map PlayerSeat.total_bet).sum + (l.getD i default).total_bet)
      = ((l.map PlayerSeat.total_bet).sum + s.total_bet) := by
  induction l generalizing i with
  | nil => simp at h
  | cons hd tl ih =>
    cases i with
    | zero => simp [List.set]; omega
    | succ n =>
      have := ih n (by simpa using h)
      simp only [List.set, List.map_cons, List.sum_cons, List.getD_cons_succ]
      omega

/-- The per-round seat reset does not change any seat's `total_bet`. -/
theorem map_total_bet_reset (l : List PlayerSeat) :
    ((l.map resetSeatForNewRound).map PlayerSeat.total_bet)
      = l.map PlayerSeat.total_bet := by
  induction l with
  | nil => rfl
  | cons hd tl ih => simp [resetSeatForNewRound, ih]

/-- `submit_cards` never touches the pot. -/
theorem submitCards_pot (ing : Nat → Nat → Nat) (g : PokerGame)
    (k c0 c1 c2 c3 c4 t : Nat) :
    (submitCards ing g k c0 c1 c2 c3 c4 t).2.pot = g.pot := by
  simp only [submitCards]
  split_ifs <;> rfl

/-- `apply_offset_batch` never touches the pot. -/
theorem applyOffsetBatch_pot (rand : Nat) (eAdd : Nat → Nat → Nat)
    (g : PokerGame) (k : Nat) :
    (applyOffsetBatch rand eAdd g k).2.pot = g.pot := by
  simp only [applyOffsetBatch, applyOffsetBatchBody]
  split_ifs <;> simp [applyCards_pot]

/-- `generate_offset` never touches the pot. -/
theorem generateOffset_pot (slot : Nat) (g : PokerGame) :
    (generateOffset slot g).2.pot = g.pot := by
  simp only [generateOffset]
  split_ifs <;> rfl

/-- A successful deal leaves the pot unchanged and creates the seat with
`total_bet = 0`. -/
theorem dealCards_pot (table : PokerTable) (g : PokerGame)
    (gk pk s b : Nat) (g' : PokerGame) (seat : PlayerSeat)
    (h : dealCards table g gk pk s b = (none, g', some seat)) :
    g'.pot = g.pot ∧ seat.total_bet = 0 := by
  simp only [dealCards] at h
  split_ifs at h <;> try exact Option.noConfusion (congrArg Prod.fst h)
  all_goals
    injection h with h1 h2
    injection h2 with h3 h4
    rw [← h3, ← Option.some.inj h4]
    exact ⟨rfl, rfl⟩

/-- Every successful `player_action` adds to the pot exactly what it adds to
the actor's `total_bet`. -/
theorem playerAction_pot_delta (g : PokerGame) (seat : PlayerSeat) (a r : Nat)
    (g' : PokerGame) (seat' : PlayerSeat)
    (h : playerAction g seat a r = (none, g', seat')) :
    g'.pot + seat.total_bet = g.pot + seat'.total_bet := by
  rcases hd : decodeAction a with _ | act
  · simp only [playerAction, hd] at h
    exact Option.noConfusion (congrArg Prod.fst h)
  · cases act <;>
      (simp only [playerAction, hd] at h
       split_ifs at h <;> try exact Option.noConfusion (congrArg Prod.fst h)
       all_goals
         simp only [playerActionFinish, Prod.mk.injEq] at h
         obtain ⟨-, hg, hs⟩ := h
         rw [← hg, ← hs] <;> simp <;> try omega)

/-- A successful `post_blinds` adds both capped blind amounts to the pot and
sets the blind seats' `total_bet` to exactly those amounts. -/
theorem postBlinds_pot (table : PokerTable) (g : PokerGame) (sb bb : PlayerSeat)
    (g' : PokerGame) (sb' bb' : PlayerSeat)
    (h : postBlinds table g sb bb = (none, g', sb', bb')) :
    g'.pot = g.pot + min table.small_blind sb.chips
      + min (table.small_blind * 2) bb.chips ∧
    sb'.total_bet = min table.small_blind sb.chips ∧
    bb'.total_bet = min (table.small_blind * 2) bb.chips := by
  simp only [postBlinds] at h
  split_ifs at h <;> try exact Option.noConfusion (congrArg Prod.fst h)
  simp only [Prod.mk.injEq] at h
  obtain ⟨-, hg, hsb, hbb⟩ := h
  rw [← hg, ← hsb, ← hbb]
  exact ⟨rfl, rfl, rfl⟩

/-- A successful `advance_stage` keeps the pot and all seats' `total_bet`. -/
theorem advanceStage_pot (g : PokerGame) (seats : List PlayerSeat)
    (g' : PokerGame) (seats' : List PlayerSeat)
    (h : advanceStage g seats = (none, g', seats')) :
    g'.pot = g.pot ∧
    seats'.map PlayerSeat.total_bet = seats.map PlayerSeat.total_bet := by
  unfold advanceStage at h
  split_ifs at h with h1 h2
  · exact Option.noConfusion (congrArg Prod.fst h)
  · simp only [Prod.mk.injEq] at h
    obtain ⟨-, hg, hs⟩ := h
    rw [← hg, ← hs]
    exact ⟨rfl, rfl⟩
  · cases hstage : g.stage <;> rw [hstage] at h <;>
      try exact Option.noConfusion (congrArg Prod.fst h)
    all_goals
      simp only [GameStage.next, Prod.mk.injEq] at h
      obtain ⟨-, hg, hs⟩ := h
      rw [← hg, ← hs]
      exact ⟨rfl, map_total_bet_reset seats⟩

/-- `getD` at an index other than the one being set. -/
theorem getD_set_ne (l : List PlayerSeat) (i j : Nat) (hij : i ≠ j)
    (s : PlayerSeat) :
    (l.set i s).getD j default = l.getD j default := by
  simp [List.getD_eq_getElem?_getD, List.getElem?_set_ne hij]

/-! ## Claim C3 (corrected): pot accounting -/

/-- C3 (amended): the accounting invariant `pot = Σ seats.total_bet` is
preserved by `submit_cards`, `apply_offset_batch`, `generate_offset`,
`deal_cards`, every `player_action` (Fold/Check/Call/Raise/AllIn) and
`advance_stage` unconditionally, and by `post_blinds` exactly when both blind
seats still have `total_bet = 0` at the call — which the program does not
enforce, since player actions are possible in PreFlop before the blinds are
posted and `post_blinds` then overwrites (rather than adds to) the blind
seats' `total_bet` (see the counterexample). -/
theorem pot_accounting_preserved :
    (∀ (ing : Nat → Nat → Nat) (w : World) (k c0 c1 c2 c3 c4 t : Nat),
       potInvariant w → potInvariant (worldSubmitCards ing w k c0 c1 c2 c3 c4 t)) ∧
    (∀ (rand : Nat) (eAdd : Nat → Nat → Nat) (w : World) (k : Nat),
       potInvariant w → potInvariant (worldApplyOffsetBatch rand eAdd w k)) ∧
    (∀ (slot : Nat) (w : World),
       potInvariant w → potInvariant (worldGenerateOffset slot w)) ∧
    (∀ (table : PokerTable) (w : World) (pk s b : Nat),
       potInvariant w → potInvariant (worldDealCards table w pk s b)) ∧
    (∀ (w : World) (i a r : Nat),
       potInvariant w → potInvariant (worldPlayerAction w i a r)) ∧
    (∀ (w : World),
       potInvariant w → potInvariant (worldAdvanceStage w)) ∧
    (∀ (table : PokerTable) (w : World) (i j : Nat), i ≠ j →
       (w.seats.getD i default).total_bet = 0 →
       (w.seats.getD j default).total_bet = 0 →
       potInvariant w → potInvariant (worldPostBlinds table w i j)) := by
  refine ⟨?_, ?_, ?_, ?_, ?_, ?_, ?_⟩
  · intro ing w k c0 c1 c2 c3 c4 t hw
    have hp := submitCards_pot ing w.game k c0 c1 c2 c3 c4 t
    unfold worldSubmitCards
    rcases hr : submitCards ing w.game k c0 c1 c2 c3 c4 t with ⟨_ | e, g2⟩ <;>
      rw [hr] at hp <;> simp only [potInvariant] at hw ⊢ <;> simp_all
  · intro rand eAdd w k hw
    have hp := applyOffsetBatch_pot rand eAdd w.game k
    unfold worldApplyOffsetBatch
    rcases hr : applyOffsetBatch rand eAdd w.game k with ⟨_ | e, g2⟩ <;>
      rw [hr] at hp <;> simp only [potInvariant] at hw ⊢ <;> simp_all
  · intro slot w hw
    have hp := generateOffset_pot slot w.game
    unfold worldGenerateOffset
    rcases hr : generateOffset slot w.game with ⟨_ | e, g2⟩ <;>
      rw [hr] at hp <;> simp only [potInvariant] at hw ⊢ <;> simp_all
  · intro table w pk s b hw
    unfold worldDealCards
    rcases hr : dealCards table w.game 0 pk s b with ⟨_ | e, g2, _ | seat⟩ <;>
      simp only [potInvariant] at hw ⊢ <;> try simpa using hw
    have hd := dealCards_pot table w.game 0 pk s b g2 seat hr
    simp [hd.1, hd.2, hw]
  · intro w i a r hw
    unfold worldPlayerAction
    rcases hs : w.seats[i]? with _ | seat
    · simp only [hs]
      exact hw
    obtain ⟨hlen, -⟩ := List.getElem?_eq_some.mp hs
    have hgetD : w.seats.getD i default = seat := by
      simp [List.getD_eq_getElem?_getD, hs]
    rcases hr : playerAction w.game seat a r with ⟨_ | e, g2, seat2⟩
    · have hd := playerAction_pot_delta w.game seat a r g2 seat2 hr
      have hsum := sum_total_bet_set w.seats i seat2 hlen
      rw [hgetD] at hsum
      simp only [hs, hr, potInvariant] at hw ⊢
      omega
    · simp only [hs, hr]
      exact hw
  · intro w hw
    unfold worldAdvanceStage
    rcases hr : advanceStage w.game w.seats with ⟨_ | e, g2, seats2⟩ <;>
      simp only [potInvariant] at hw ⊢ <;> try simpa using hw
    have hd := advanceStage_pot w.game w.seats g2 seats2 hr
    simp [hd.1, hd.2, hw]
  · intro table w i j hij hti htj hw
    unfold worldPostBlinds
    rcases hsi : w.seats[i]? with _ | sb
    · simp only [hsi]
      exact hw
    rcases hsj : w.seats[j]? with _ | bb
    · simp only [hsi, hsj]
      exact hw
    obtain ⟨hleni, -⟩ := List.getElem?_eq_some.mp hsi
    obtain ⟨hlenj, -⟩ := List.getElem?_eq_some.mp hsj
    have hgetDi : w.seats.getD i default = sb := by
      simp [List.getD_eq_getElem?_getD, hsi]
    have hgetDj : w.seats.getD j default = bb := by
      simp [List.getD_eq_getElem?_getD, hsj]
    rcases hr : postBlinds table w.game sb bb with ⟨_ | e, g2, sb2, bb2⟩
    · have hd := postBlinds_pot table w.game sb bb g2 sb2 bb2 hr
      have hsum1 := sum_total_bet_set w.seats i sb2 hleni
      have hsum2 := sum_total_bet_set (w.seats.set i sb2) j bb2
        (by simpa using hlenj)
      rw [hgetDi] at hsum1
      rw [getD_set_ne w.seats i j hij sb2, hgetDj] at hsum2
      rw [hgetDi] at hti
      rw [hgetDj] at htj
      simp only [hsi, hsj, hr, potInvariant] at hw ⊢
      omega
    · simp only [hsi, hsj, hr]
      exact hw

/-- Witness for the amended C3: on the executed trace, posting blinds right
after the deal (both blind seats still at `total_bet = 0`) preserves the
invariant, as does a player action. -/
theorem pot_accounting_preserved_witness :
    potInvariant (worldPostBlinds tableC w3 1 2) ∧
    potInvariant (worldPlayerAction w3 0 3 5) := by
  refine ⟨pot_accounting_preserved.2.2.2.2.2.2 tableC w3 1 2 (by decide) (by decide)
            (by decide) (by decide),
          pot_accounting_preserved.2.2.2.2.1 w3 0 3 5 (by decide)⟩

/-- Counterexample to C3 as stated: on the executed trace, seat 0 raises and
seat 1 calls while the game is already in PreFlop but the blinds are not yet
posted (`w5` satisfies `pot = Σ total_bet`, with pot 10); `post_blinds` is
then legal, overwrites the blind seats' `total_bet` with the blind amounts,
and breaks the invariant: the pot becomes 40 while the seats' `total_bet`
sums to 35. -/
theorem pot_accounting_broken_by_post_blinds :
    potInvariant w5 ∧
    w6 = worldPostBlinds tableC w5 1 2 ∧
    w6.game.pot = 40 ∧
    (w6.seats.map PlayerSeat.total_bet).sum = 35 ∧
    ¬ potInvariant w6 := by
  refine ⟨by decide, rfl, by decide, by decide, by decide⟩

end SolPoker
